import Mathlib

/-!
Shallow embedding of the edenfuturesbackend voting service
(src/routes/public.js and src/routes/admin.js) over an explicit
relational state.  Each Express handler becomes a pure function from a
database state (plus the request payload and, where the handler issues
fallible store calls, one Boolean per store call indicating whether that
call fails) to the next database state and the HTTP status it responds
with.  Supabase `maybeSingle` is modelled faithfully: zero rows yield
none, one row yields it, and two or more rows make the call fail.
-/

structure Category where
  id : Nat
  name : String
  description : Option String
  is_active : Bool
deriving DecidableEq

structure Nominee where
  id : Nat
  name : String
deriving DecidableEq

structure Nomination where
  id : Nat
  nominee_id : Nat
  category_id : Nat
deriving DecidableEq

structure Voter where
  id : Nat
  name : String
  email : String
  phone : String
deriving DecidableEq

structure Vote where
  id : Nat
  voter_id : Nat
  category_id : Nat
  nominee_id : Nat
deriving DecidableEq

/-- The external relational store: one list per table, plus the next
serial id each table would hand out. -/
structure DB where
  categories : List Category
  nominees : List Nominee
  nominations : List Nomination
  voters : List Voter
  votes : List Vote
  nextCategoryId : Nat
  nextNomineeId : Nat
  nextNominationId : Nat
  nextVoterId : Nat
  nextVoteId : Nat
deriving DecidableEq

def emptyDB : DB :=
  { categories := [], nominees := [], nominations := [], voters := [], votes := []
    nextCategoryId := 1, nextNomineeId := 1, nextNominationId := 1
    nextVoterId := 1, nextVoteId := 1 }

/-- Rows of `nominations` matching `.eq(category_id).eq(nominee_id)`;
its length is the `count` of the POST /vote nomination pre-check. -/
def nominatedCount (db : DB) (categoryId nomineeId : Nat) : Nat :=
  (db.nominations.filter
    (fun n => n.category_id == categoryId && n.nominee_id == nomineeId)).length

/-- Rows of `votes` matching `.eq(voter_id).eq(category_id)` (the
duplicate-vote pre-check of POST /vote). -/
def votesForPair (db : DB) (voterId categoryId : Nat) : List Vote :=
  db.votes.filter (fun v => v.voter_id == voterId && v.category_id == categoryId)

def voteCountFor (db : DB) (voterId categoryId : Nat) : Nat :=
  (votesForPair db voterId categoryId).length

/-- POST /api/public/vote (src/routes/public.js lines 107-154).
Store call order: the nomination count query, the duplicate-vote
`maybeSingle` query, the insert.  A failure of the nomination count
query is folded by the code into the `count === 0` test and answered
with 400; a failing duplicate check or a `maybeSingle` multi-row result
answers 500; a failing insert answers 500; otherwise the vote row is
appended and the handler answers 201. -/
def postVote (db : DB) (voterId categoryId nomineeId : Nat)
    (errNomCheck errDupCheck errInsert : Bool) : DB × Nat :=
  if errNomCheck || nominatedCount db categoryId nomineeId == 0 then (db, 400)
  else if errDupCheck then (db, 500)
  else
    match votesForPair db voterId categoryId with
    | [] =>
        if errInsert then (db, 500)
        else ({ db with
                 votes := db.votes ++ [{ id := db.nextVoteId, voter_id := voterId,
                                         category_id := categoryId, nominee_id := nomineeId }]
                 nextVoteId := db.nextVoteId + 1 }, 201)
    | [_] => (db, 409)
    | _ :: _ :: _ => (db, 500)

/-- Rows of `voters` matching `.eq(email)` in POST /signin. -/
def emailMatches (db : DB) (email : String) : List Voter :=
  db.voters.filter (fun v => v.email == email)

structure SigninRes where
  status : Nat
  voterId : Option Nat
deriving DecidableEq

/-- POST /api/public/signin (src/routes/public.js lines 53-87).
Select the voter by email with `maybeSingle`; on a hit answer 200 with
that id, otherwise insert a fresh voter and answer 200 with the new id;
any store failure answers 500. -/
def postSignin (db : DB) (name email phone : String)
    (errSelect errInsert : Bool) : DB × SigninRes :=
  if errSelect then (db, ⟨500, none⟩)
  else
    match emailMatches db email with
    | [v] => (db, ⟨200, some v.id⟩)
    | [] =>
        if errInsert then (db, ⟨500, none⟩)
        else ({ db with
                 voters := db.voters ++ [{ id := db.nextVoterId, name := name,
                                           email := email, phone := phone }]
                 nextVoterId := db.nextVoterId + 1 }, ⟨200, some db.nextVoterId⟩)
    | _ :: _ :: _ => (db, ⟨500, none⟩)

/-- POST /api/admin/categories.  The insert takes only `name`; the
`description` column stays at its NULL default.  The `is_active`
column default lives in the external schema, outside this repository;
the public route filters on `is_active = true`, so freshly created
categories are modelled active. -/
def postCategory (db : DB) (name : String) (errInsert : Bool) : DB × Nat :=
  if errInsert then (db, 400)
  else ({ db with
           categories := db.categories ++ [{ id := db.nextCategoryId, name := name,
                                             description := none, is_active := true }]
           nextCategoryId := db.nextCategoryId + 1 }, 201)

/-- PATCH /api/admin/categories/:id.  With neither field present answer
400; otherwise update the matching rows; `.single()` demands exactly one
returned row, else the handler answers 500. -/
def patchCategory (db : DB) (id : Nat) (name? desc? : Option String)
    (errUpdate : Bool) : DB × Nat :=
  if name?.isNone && desc?.isNone then (db, 400)
  else if errUpdate then (db, 500)
  else
    let updated := { db with categories := db.categories.map (fun c =>
      if c.id == id then
        { c with name := name?.getD c.name
                 description := if desc?.isSome then desc? else c.description }
      else c) }
    if (db.categories.filter (fun c => c.id == id)).length == 1 then (updated, 200)
    else (updated, 500)

/-- DELETE /api/admin/categories/:id (src/routes/admin.js lines 65-102).
Three store calls in order: delete the votes of the category, delete its
nominations, delete the category row.  The first failing call stops the
sequence with a 500; only when all three succeed does the handler answer
200. -/
def deleteCategory (db : DB) (categoryId : Nat) (e1 e2 e3 : Bool) : DB × Nat :=
  if e1 then (db, 500)
  else
    let db1 := { db with votes := db.votes.filter (fun v => !(v.category_id == categoryId)) }
    if e2 then (db1, 500)
    else
      let db2 := { db1 with
        nominations := db1.nominations.filter (fun n => !(n.category_id == categoryId)) }
      if e3 then (db2, 500)
      else ({ db2 with
               categories := db2.categories.filter (fun c => !(c.id == categoryId)) }, 200)

/-- POST /api/admin/nominees (name only, no category column). -/
def postNominee (db : DB) (name : String) (errInsert : Bool) : DB × Nat :=
  if errInsert then (db, 400)
  else ({ db with
           nominees := db.nominees ++ [{ id := db.nextNomineeId, name := name }]
           nextNomineeId := db.nextNomineeId + 1 }, 201)

/-- PATCH /api/admin/nominees/:id. -/
def patchNominee (db : DB) (id : Nat) (name? : Option String)
    (errUpdate : Bool) : DB × Nat :=
  match name? with
  | none => (db, 400)
  | some name =>
      if errUpdate then (db, 500)
      else
        let updated := { db with nominees := db.nominees.map (fun m =>
          if m.id == id then { m with name := name } else m) }
        if (db.nominees.filter (fun m => m.id == id)).length == 1 then (updated, 200)
        else (updated, 500)

/-- DELETE /api/admin/nominees/:id (src/routes/admin.js lines 150-187):
delete the votes of the nominee, then its nominations, then the nominee
row, stopping with 500 at the first failing call. -/
def deleteNominee (db : DB) (nomineeId : Nat) (e1 e2 e3 : Bool) : DB × Nat :=
  if e1 then (db, 500)
  else
    let db1 := { db with votes := db.votes.filter (fun v => !(v.nominee_id == nomineeId)) }
    if e2 then (db1, 500)
    else
      let db2 := { db1 with
        nominations := db1.nominations.filter (fun n => !(n.nominee_id == nomineeId)) }
      if e3 then (db2, 500)
      else ({ db2 with
               nominees := db2.nominees.filter (fun m => !(m.id == nomineeId)) }, 200)

/-- POST /api/admin/nominations: count existing links for the pair; a
failing check answers 500, an existing link answers 409, a failing
insert answers 400, success appends the link and answers 201. -/
def postNomination (db : DB) (nominee_id category_id : Nat)
    (errCheck errInsert : Bool) : DB × Nat :=
  if errCheck then (db, 500)
  else if 0 < (db.nominations.filter
      (fun n => n.nominee_id == nominee_id && n.category_id == category_id)).length then
    (db, 409)
  else if errInsert then (db, 400)
  else ({ db with
           nominations := db.nominations ++ [{ id := db.nextNominationId,
                                               nominee_id := nominee_id,
                                               category_id := category_id }]
           nextNominationId := db.nextNominationId + 1 }, 201)

/-- DELETE /api/admin/nominations/:id (src/routes/admin.js lines
244-254): a single delete of the link row; the votes table is not
touched. -/
def deleteNomination (db : DB) (id : Nat) (errDelete : Bool) : DB × Nat :=
  if errDelete then (db, 500)
  else ({ db with nominations := db.nominations.filter (fun n => !(n.id == id)) }, 200)

/-- Admin auth middleware (src/routes/admin.js lines 7-15): compare the
x-admin-key header with ADMIN_SECRET_KEY under JavaScript strict
equality, where a missing header and an unset variable are both
`undefined`; a mismatch answers 403, a match calls next(). -/
def checkAdminAuth (headerKey envKey : Option String) : Option Nat :=
  if headerKey = envKey then none else some 403

/-- One row of a winners tally.  Real entries carry the nominee id; the
two fallback objects of the code (`No nominees`, `Error`) have no id
field, hence the Option. -/
structure TallyEntry where
  id : Option Nat
  name : String
  voteCount : Nat
deriving DecidableEq

structure CatResult where
  categoryName : String
  winner : TallyEntry
  fullTally : List TallyEntry
deriving DecidableEq

structure WinnersRes where
  status : Nat
  results : List CatResult
deriving DecidableEq

/-- The comparator `(a, b) => b.voteCount - a.voteCount` of the winners
tally sort: `a` may precede `b` when its count is at least as large. -/
def tallyLE (a b : TallyEntry) : Bool :=
  b.voteCount ≤ a.voteCount

/-- The nominees the winners handler resolves for one category: each
nomination link of the category joined to its nominee row, with the
defensive JavaScript filter `n && n.id` dropping missing joins and a
falsy (zero) id. -/
def resolvedNominees (db : DB) (categoryId : Nat) : List Nominee :=
  (db.nominations.filter (fun n => n.category_id == categoryId)).filterMap
    (fun link => (db.nominees.find? (fun m => m.id == link.nominee_id)).bind
      (fun m => if m.id == 0 then none else some m))

/-- Votes counted for one nominee inside one category
(`.eq(nominee_id).eq(category_id)` with an exact count). -/
def voteCountInCat (db : DB) (categoryId nomineeId : Nat) : Nat :=
  (db.votes.filter (fun v => v.nominee_id == nomineeId && v.category_id == categoryId)).length

/-- The unsorted tally of one category.  `countErr n` tells whether the
count query of nominee `n` fails; the code logs such a failure and keeps
the entry with `voteCount: 0`. -/
def tallyOf (db : DB) (categoryId : Nat) (countErr : Nat → Bool) : List TallyEntry :=
  (resolvedNominees db categoryId).map (fun n =>
    if countErr n.id then { id := some n.id, name := n.name, voteCount := 0 }
    else { id := some n.id, name := n.name, voteCount := voteCountInCat db categoryId n.id })

/-- Per-category part of GET /api/admin/winners (src/routes/admin.js
lines 273-321).  A failing nominations fetch is caught and replaced by
an `Error` fallback result; otherwise the tally is sorted descending by
vote count with the stable JavaScript sort, the winner being
`tally[0] || sentinel`. -/
def winnersForCat (db : DB) (cat : Category) (linkErr : Bool)
    (countErr : Nat → Bool) : CatResult :=
  if linkErr then
    { categoryName := cat.name, winner := { id := none, name := "Error", voteCount := 0 }
      fullTally := [] }
  else
    let sorted := (tallyOf db cat.id countErr).mergeSort tallyLE
    { categoryName := cat.name
      winner := sorted.head?.getD { id := none, name := "No nominees", voteCount := 0 }
      fullTally := sorted }

/-- GET /api/admin/winners (src/routes/admin.js lines 260-330).  The
category fetch takes ALL rows of `categories`; its failure is the only
path to a 500, every per-category failure being absorbed inside the
result list. -/
def getWinners (db : DB) (catErr : Bool) (linkErr : Nat → Bool)
    (countErr : Nat → Nat → Bool) : WinnersRes :=
  if catErr then { status := 500, results := [] }
  else { status := 200
         results := db.categories.map (fun cat =>
           winnersForCat db cat (linkErr cat.id) (countErr cat.id)) }

/-- A mutating request to the service, bundling its payload and the
failure pattern of its store calls. -/
inductive Op where
  | signin (name email phone : String) (errSelect errInsert : Bool)
  | vote (voterId categoryId nomineeId : Nat) (errNomCheck errDupCheck errInsert : Bool)
  | addCategory (name : String) (errInsert : Bool)
  | editCategory (id : Nat) (name? desc? : Option String) (errUpdate : Bool)
  | removeCategory (id : Nat) (e1 e2 e3 : Bool)
  | addNominee (name : String) (errInsert : Bool)
  | editNominee (id : Nat) (name? : Option String) (errUpdate : Bool)
  | removeNominee (id : Nat) (e1 e2 e3 : Bool)
  | addNomination (nominee_id category_id : Nat) (errCheck errInsert : Bool)
  | removeNomination (id : Nat) (errDelete : Bool)

def applyOp (op : Op) (db : DB) : DB :=
  match op with
  | .signin n e p a b => (postSignin db n e p a b).1
  | .vote v c m a b i => (postVote db v c m a b i).1
  | .addCategory n a => (postCategory db n a).1
  | .editCategory i n d a => (patchCategory db i n d a).1
  | .removeCategory i a b c => (deleteCategory db i a b c).1
  | .addNominee n a => (postNominee db n a).1
  | .editNominee i n a => (patchNominee db i n a).1
  | .removeNominee i a b c => (deleteNominee db i a b c).1
  | .addNomination n c a b => (postNomination db n c a b).1
  | .removeNomination i a => (deleteNomination db i a).1

/-- States reachable from the empty store by any sequence of requests
(with any pattern of store failures). -/
inductive Reachable : DB → Prop where
  | empty : Reachable emptyDB
  | step (op : Op) {db : DB} : Reachable db → Reachable (applyOp op db)

def Op.isRemoveNomination : Op → Bool
  | .removeNomination _ _ => true
  | _ => false

/-- Referential invariant of the spec: every vote points at an existing
nomination of the same (category, nominee) pair. -/
def voteNomInv (db : DB) : Prop :=
  ∀ v ∈ db.votes, ∃ n ∈ db.nominations,
    n.category_id = v.category_id ∧ n.nominee_id = v.nominee_id

/-- Concrete scenario: category 1 with nominee 1 nominated and voter 1
signed in, no votes yet. -/
def dbSeed : DB :=
  applyOp (.signin "Bob" "bob@example.com" "111" false false)
    (applyOp (.addNomination 1 1 false false)
      (applyOp (.addNominee "Alice" false)
        (applyOp (.addCategory "Best" false) emptyDB)))

/-- The scenario after voter 1 votes for nominee 1 in category 1. -/
def dbVoted : DB :=
  applyOp (.vote 1 1 1 false false false) dbSeed

/-- The scenario after the admin then deletes nomination 1: the vote
row survives the nomination it referenced. -/
def dbDangling : DB :=
  applyOp (.removeNomination 1 false) dbVoted

/-- A store holding one inactive category with a nominated nominee. -/
def dbInactive : DB :=
  { categories := [{ id := 1, name := "Retired", description := none, is_active := false }]
    nominees := [{ id := 1, name := "Alice" }]
    nominations := [{ id := 1, nominee_id := 1, category_id := 1 }]
    voters := [], votes := []
    nextCategoryId := 2, nextNomineeId := 2, nextNominationId := 2
    nextVoterId := 1, nextVoteId := 1 }

/-- A reachable store where category 1 has two nominated nominees,
both without votes: a tally tie. -/
def dbTwo : DB :=
  applyOp (.addNomination 2 1 false false)
    (applyOp (.addNominee "Bob" false)
      (applyOp (.addNomination 1 1 false false)
        (applyOp (.addNominee "Alice" false)
          (applyOp (.addCategory "Best" false) emptyDB))))

/-! ### Generic list lemmas -/

theorem length_filter_filter_le {α : Type} (p q : α → Bool) (l : List α) :
    ((l.filter q).filter p).length ≤ (l.filter p).length := by
  induction l with
  | nil => simp
  | cons a t ih =>
      rw [List.filter_cons, List.filter_cons]
      by_cases hq : q a
      · rw [if_pos hq, List.filter_cons]
        by_cases hp : p a
        · rw [if_pos hp, if_pos hp]
          simp only [List.length_cons]
          exact Nat.succ_le_succ ih
        · rw [if_neg hp, if_neg hp]
          exact ih
      · rw [if_neg hq]
        by_cases hp : p a
        · rw [if_pos hp]
          simp only [List.length_cons]
          exact Nat.le_succ_of_le ih
        · rw [if_neg hp]
          exact ih

/-! ### Field-effect lemmas for the handlers -/

theorem postSignin_votes (db : DB) (n e p : String) (a b : Bool) :
    (postSignin db n e p a b).1.votes = db.votes := by
  unfold postSignin
  repeat' split
  all_goals rfl

theorem postSignin_nominations (db : DB) (n e p : String) (a b : Bool) :
    (postSignin db n e p a b).1.nominations = db.nominations := by
  unfold postSignin
  repeat' split
  all_goals rfl

theorem patchCategory_votes (db : DB) (i : Nat) (n d : Option String) (a : Bool) :
    (patchCategory db i n d a).1.votes = db.votes := by
  unfold patchCategory
  dsimp only
  repeat' split
  all_goals rfl

theorem patchCategory_nominations (db : DB) (i : Nat) (n d : Option String) (a : Bool) :
    (patchCategory db i n d a).1.nominations = db.nominations := by
  unfold patchCategory
  dsimp only
  repeat' split
  all_goals rfl

theorem patchNominee_votes (db : DB) (i : Nat) (n : Option String) (a : Bool) :
    (patchNominee db i n a).1.votes = db.votes := by
  unfold patchNominee
  dsimp only
  repeat' split
  all_goals rfl

theorem patchNominee_nominations (db : DB) (i : Nat) (n : Option String) (a : Bool) :
    (patchNominee db i n a).1.nominations = db.nominations := by
  unfold patchNominee
  dsimp only
  repeat' split
  all_goals rfl

theorem postNomination_votes (db : DB) (n c : Nat) (a b : Bool) :
    (postNomination db n c a b).1.votes = db.votes := by
  unfold postNomination
  repeat' split
  all_goals rfl

theorem deleteNomination_votes (db : DB) (i : Nat) (a : Bool) :
    (deleteNomination db i a).1.votes = db.votes := by
  unfold deleteNomination
  split <;> rfl

theorem postCategory_votes (db : DB) (n : String) (a : Bool) :
    (postCategory db n a).1.votes = db.votes := by
  unfold postCategory
  split <;> rfl

theorem postCategory_nominations (db : DB) (n : String) (a : Bool) :
    (postCategory db n a).1.nominations = db.nominations := by
  unfold postCategory
  split <;> rfl

theorem postNominee_votes (db : DB) (n : String) (a : Bool) :
    (postNominee db n a).1.votes = db.votes := by
  unfold postNominee
  split <;> rfl

theorem postNominee_nominations (db : DB) (n : String) (a : Bool) :
    (postNominee db n a).1.nominations = db.nominations := by
  unfold postNominee
  split <;> rfl

theorem postVote_nominations (db : DB) (v c m : Nat) (a b i : Bool) :
    (postVote db v c m a b i).1.nominations = db.nominations := by
  unfold postVote
  repeat' split
  all_goals rfl

/-- Characterization of the votes table after POST /vote: either it is
untouched, or the duplicate pre-check found nothing and exactly the new
row was appended. -/
theorem postVote_votes (db : DB) (v c m : Nat) (a b i : Bool) :
    (postVote db v c m a b i).1.votes = db.votes ∨
    (votesForPair db v c = [] ∧
      (postVote db v c m a b i).1.votes
        = db.votes ++ [{ id := db.nextVoteId, voter_id := v,
                         category_id := c, nominee_id := m }]) := by
  unfold postVote
  split
  · exact Or.inl rfl
  split
  · exact Or.inl rfl
  split
  next hvp =>
    split
    · exact Or.inl rfl
    · exact Or.inr ⟨hvp, rfl⟩
  next => exact Or.inl rfl
  next => exact Or.inl rfl

theorem postNomination_nominations (db : DB) (n c : Nat) (a b : Bool) :
    (postNomination db n c a b).1.nominations = db.nominations ∨
    (postNomination db n c a b).1.nominations
      = db.nominations ++ [{ id := db.nextNominationId, nominee_id := n, category_id := c }] := by
  unfold postNomination
  repeat' split
  all_goals first
  | exact Or.inl rfl
  | exact Or.inr rfl

theorem deleteNomination_nominations (db : DB) (i : Nat) (a : Bool) :
    (deleteNomination db i a).1.nominations = db.nominations ∨
    (deleteNomination db i a).1.nominations
      = db.nominations.filter (fun n => !(n.id == i)) := by
  unfold deleteNomination
  split
  · exact Or.inl rfl
  · exact Or.inr rfl

/-- The four possible outcomes of the cascading category delete. -/
theorem deleteCategory_cases (db : DB) (i : Nat) (e1 e2 e3 : Bool) :
    (deleteCategory db i e1 e2 e3).1 = db ∨
    ((deleteCategory db i e1 e2 e3).1.votes
        = db.votes.filter (fun v => !(v.category_id == i)) ∧
      ((deleteCategory db i e1 e2 e3).1.nominations = db.nominations ∨
        (deleteCategory db i e1 e2 e3).1.nominations
          = db.nominations.filter (fun n => !(n.category_id == i)))) := by
  unfold deleteCategory
  split
  · exact Or.inl rfl
  split
  · exact Or.inr ⟨rfl, Or.inl rfl⟩
  split
  · exact Or.inr ⟨rfl, Or.inr rfl⟩
  · exact Or.inr ⟨rfl, Or.inr rfl⟩

/-- The four possible outcomes of the cascading nominee delete. -/
theorem deleteNominee_cases (db : DB) (i : Nat) (e1 e2 e3 : Bool) :
    (deleteNominee db i e1 e2 e3).1 = db ∨
    ((deleteNominee db i e1 e2 e3).1.votes
        = db.votes.filter (fun v => !(v.nominee_id == i)) ∧
      ((deleteNominee db i e1 e2 e3).1.nominations = db.nominations ∨
        (deleteNominee db i e1 e2 e3).1.nominations
          = db.nominations.filter (fun n => !(n.nominee_id == i)))) := by
  unfold deleteNominee
  split
  · exact Or.inl rfl
  split
  · exact Or.inr ⟨rfl, Or.inl rfl⟩
  split
  · exact Or.inr ⟨rfl, Or.inr rfl⟩
  · exact Or.inr ⟨rfl, Or.inr rfl⟩

/-! ### Preservation of the one-vote-per-pair invariant -/

theorem voteCountFor_congr {db db' : DB} (h : db'.votes = db.votes) (p c : Nat) :
    voteCountFor db' p c = voteCountFor db p c := by
  simp only [voteCountFor, votesForPair, h]

theorem voteCountFor_le_of_filter {db db' : DB} {q : Vote → Bool}
    (h : db'.votes = db.votes.filter q) (p c : Nat) :
    voteCountFor db' p c ≤ voteCountFor db p c := by
  simp only [voteCountFor, votesForPair, h]
  exact length_filter_filter_le _ _ _

/-- Every request preserves the at-most-one-vote-per-(voter, category)
invariant, whatever its store failures. -/
theorem applyOp_atMostOne (op : Op) (db : DB)
    (h : ∀ p c, voteCountFor db p c ≤ 1) :
    ∀ p c, voteCountFor (applyOp op db) p c ≤ 1 := by
  intro p c
  cases op with
  | signin n e ph a b =>
      rw [applyOp, voteCountFor_congr (postSignin_votes db n e ph a b)]
      exact h p c
  | addCategory n a =>
      rw [applyOp, voteCountFor_congr (postCategory_votes db n a)]
      exact h p c
  | editCategory i n d a =>
      rw [applyOp, voteCountFor_congr (patchCategory_votes db i n d a)]
      exact h p c
  | addNominee n a =>
      rw [applyOp, voteCountFor_congr (postNominee_votes db n a)]
      exact h p c
  | editNominee i n a =>
      rw [applyOp, voteCountFor_congr (patchNominee_votes db i n a)]
      exact h p c
  | addNomination n c0 a b =>
      rw [applyOp, voteCountFor_congr (postNomination_votes db n c0 a b)]
      exact h p c
  | removeNomination i a =>
      rw [applyOp, voteCountFor_congr (deleteNomination_votes db i a)]
      exact h p c
  | removeCategory i e1 e2 e3 =>
      rw [applyOp]
      rcases deleteCategory_cases db i e1 e2 e3 with heq | ⟨hv, -⟩
      · rw [heq]; exact h p c
      · exact le_trans (voteCountFor_le_of_filter hv p c) (h p c)
  | removeNominee i e1 e2 e3 =>
      rw [applyOp]
      rcases deleteNominee_cases db i e1 e2 e3 with heq | ⟨hv, -⟩
      · rw [heq]; exact h p c
      · exact le_trans (voteCountFor_le_of_filter hv p c) (h p c)
  | vote v c0 m a b i =>
      rw [applyOp]
      rcases postVote_votes db v c0 m a b i with hv | ⟨hvp, hv⟩
      · rw [voteCountFor_congr hv]; exact h p c
      · simp only [voteCountFor, votesForPair, hv, List.filter_append,
          List.length_append]
        by_cases hmatch :
            ((Vote.mk db.nextVoteId v c0 m).voter_id == p
              && (Vote.mk db.nextVoteId v c0 m).category_id == c) = true
        · obtain ⟨hp, hc⟩ := Bool.and_eq_true_iff.mp hmatch
          have hp' : v = p := by simpa using hp
          have hc' : c0 = c := by simpa using hc
          subst hp'
          subst hc'
          have h0 : (db.votes.filter
              (fun w => w.voter_id == v && w.category_id == c0)).length = 0 := by
            have := hvp
            simp only [votesForPair] at this
            rw [this]
            rfl
          rw [h0]
          simp [List.filter, hmatch]
        · have : (List.filter (fun w => w.voter_id == p && w.category_id == c)
              [Vote.mk db.nextVoteId v c0 m]).length = 0 := by
            simp [List.filter, hmatch]
          rw [this]
          simpa using h p c

/-! ### Preservation of the vote-has-nomination invariant -/

theorem voteNomInv_mono {db db' : DB} (h : voteNomInv db)
    (hv : ∀ v ∈ db'.votes, v ∈ db.votes)
    (hn : ∀ n ∈ db.nominations, n ∈ db'.nominations) : voteNomInv db' := by
  intro v hvm
  obtain ⟨n, hnm, hcc, hnn⟩ := h v (hv v hvm)
  exact ⟨n, hn n hnm, hcc, hnn⟩

theorem voteNomInv_congr {db db' : DB} (hv : db'.votes = db.votes)
    (hn : db'.nominations = db.nominations) (h : voteNomInv db) : voteNomInv db' := by
  refine voteNomInv_mono h ?_ ?_
  · intro v hm; rw [hv] at hm; exact hm
  · intro n hm; rw [hn]; exact hm

/-- After a cascading delete keyed on `key`, every surviving vote still
has its nomination: surviving votes disagree with `key` on the filtered
column, so their nominations survive the nomination filter too. -/
theorem voteNomInv_cascade_category {db : DB} (i : Nat) (h : voteNomInv db) :
    voteNomInv { db with
      votes := db.votes.filter (fun v => !(v.category_id == i))
      nominations := db.nominations.filter (fun n => !(n.category_id == i)) } := by
  intro v hvm
  simp only [List.mem_filter] at hvm
  obtain ⟨hvm, hvne⟩ := hvm
  obtain ⟨n, hnm, hcc, hnn⟩ := h v hvm
  refine ⟨n, ?_, hcc, hnn⟩
  simp only [List.mem_filter]
  exact ⟨hnm, by rw [hcc]; exact hvne⟩

theorem voteNomInv_cascade_nominee {db : DB} (i : Nat) (h : voteNomInv db) :
    voteNomInv { db with
      votes := db.votes.filter (fun v => !(v.nominee_id == i))
      nominations := db.nominations.filter (fun n => !(n.nominee_id == i)) } := by
  intro v hvm
  simp only [List.mem_filter] at hvm
  obtain ⟨hvm, hvne⟩ := hvm
  obtain ⟨n, hnm, hcc, hnn⟩ := h v hvm
  refine ⟨n, ?_, hcc, hnn⟩
  simp only [List.mem_filter]
  exact ⟨hnm, by rw [hnn]; exact hvne⟩

theorem voteNomInv_postVote (db : DB) (v c0 m : Nat) (a b i : Bool)
    (h : voteNomInv db) : voteNomInv (postVote db v c0 m a b i).1 := by
  unfold postVote
  split
  next => exact h
  next hcond =>
    split
    next => exact h
    next =>
      split
      next hvp =>
        split
        next => exact h
        next =>
          intro w hw
          simp only [List.mem_append, List.mem_singleton] at hw
          rcases hw with hw | hw
          · exact h w hw
          · subst hw
            have hne : nominatedCount db c0 m ≠ 0 := by
              simp only [Bool.or_eq_true, beq_iff_eq] at hcond
              push_neg at hcond
              exact hcond.2
            have hpos : 0 < (db.nominations.filter
                (fun n => n.category_id == c0 && n.nominee_id == m)).length :=
              Nat.pos_of_ne_zero hne
            obtain ⟨n, hn⟩ := List.exists_mem_of_length_pos hpos
            rw [List.mem_filter] at hn
            obtain ⟨hnm, hpred⟩ := hn
            simp only [Bool.and_eq_true, beq_iff_eq] at hpred
            exact ⟨n, hnm, hpred.1, hpred.2⟩
      next => exact h
      next => exact h

/-- Claim C2 (amended): every operation other than DELETE
/nominations/:id preserves the invariant that each vote row has a
matching nomination row for its (category, nominee) pair; the
nomination-delete endpoint removes only the link row and can therefore
leave dangling votes behind. -/
theorem voteNomInv_preserved_except_removeNomination (op : Op) (db : DB)
    (hop : op.isRemoveNomination = false) (h : voteNomInv db) :
    voteNomInv (applyOp op db) := by
  cases op with
  | signin n e ph a b =>
      exact voteNomInv_congr (postSignin_votes db n e ph a b)
        (postSignin_nominations db n e ph a b) h
  | addCategory n a =>
      exact voteNomInv_congr (postCategory_votes db n a)
        (postCategory_nominations db n a) h
  | editCategory i n d a =>
      exact voteNomInv_congr (patchCategory_votes db i n d a)
        (patchCategory_nominations db i n d a) h
  | addNominee n a =>
      exact voteNomInv_congr (postNominee_votes db n a)
        (postNominee_nominations db n a) h
  | editNominee i n a =>
      exact voteNomInv_congr (patchNominee_votes db i n a)
        (patchNominee_nominations db i n a) h
  | addNomination n c0 a b =>
      show voteNomInv (postNomination db n c0 a b).1
      rcases postNomination_nominations db n c0 a b with hn | hn
      · exact voteNomInv_congr (postNomination_votes db n c0 a b) hn h
      · refine voteNomInv_mono h ?_ ?_
        · intro v hv
          rw [postNomination_votes db n c0 a b] at hv
          exact hv
        · intro nm hm
          rw [hn, List.mem_append]
          exact Or.inl hm
  | vote v c0 m a b i => exact voteNomInv_postVote db v c0 m a b i h
  | removeCategory i e1 e2 e3 =>
      show voteNomInv (deleteCategory db i e1 e2 e3).1
      rcases deleteCategory_cases db i e1 e2 e3 with heq | ⟨hv, hn | hn⟩
      · rw [heq]; exact h
      · refine voteNomInv_mono h ?_ ?_
        · intro w hw
          rw [hv] at hw
          exact List.mem_of_mem_filter hw
        · intro nm hm
          rw [hn]
          exact hm
      · exact voteNomInv_congr hv hn (voteNomInv_cascade_category i h)
  | removeNominee i e1 e2 e3 =>
      show voteNomInv (deleteNominee db i e1 e2 e3).1
      rcases deleteNominee_cases db i e1 e2 e3 with heq | ⟨hv, hn | hn⟩
      · rw [heq]; exact h
      · refine voteNomInv_mono h ?_ ?_
        · intro w hw
          rw [hv] at hw
          exact List.mem_of_mem_filter hw
        · intro nm hm
          rw [hn]
          exact hm
      · exact voteNomInv_congr hv hn (voteNomInv_cascade_nominee i h)
  | removeNomination i a => exact absurd hop (by simp [Op.isRemoveNomination])

/-! ### Claim theorems -/

/-- Claim C10: the admin middleware grants access exactly when the
x-admin-key header value strictly equals the ADMIN_SECRET_KEY value
under JavaScript strict equality, and rejects with 403 otherwise; in
particular when the environment variable is unset, a request omitting
the header (both values undefined) is granted admin access. -/
theorem checkAdminAuth_spec :
    (∀ headerKey envKey : Option String,
      (checkAdminAuth headerKey envKey = none ↔ headerKey = envKey) ∧
      (checkAdminAuth headerKey envKey = some 403 ↔ headerKey ≠ envKey)) ∧
    checkAdminAuth none none = none := by
  refine ⟨fun hk ek => ⟨?_, ?_⟩, rfl⟩
  · unfold checkAdminAuth
    by_cases h : hk = ek
    · simp [h]
    · simp [h]
  · unfold checkAdminAuth
    by_cases h : hk = ek
    · simp [h]
    · simp [h]

/-- Claim C8: the cascading deletes of DELETE /categories/:id and
DELETE /nominees/:id run votes first, then nominations, then the entity
row, in exactly that order; the first failing step ends the request with
a 500 and the later steps do not execute; the 200 success answer occurs
exactly when every step ran. -/
theorem cascadeDelete_spec (db : DB) (i : Nat) (e1 e2 e3 : Bool) :
    (deleteCategory db i true e2 e3 = (db, 500)) ∧
    (deleteCategory db i false true e3
      = ({ db with votes := db.votes.filter (fun v => !(v.category_id == i)) }, 500)) ∧
    (deleteCategory db i false false true
      = ({ db with
             votes := db.votes.filter (fun v => !(v.category_id == i))
             nominations := db.nominations.filter (fun n => !(n.category_id == i)) }, 500)) ∧
    (deleteCategory db i false false false
      = ({ db with
             votes := db.votes.filter (fun v => !(v.category_id == i))
             nominations := db.nominations.filter (fun n => !(n.category_id == i))
             categories := db.categories.filter (fun c => !(c.id == i)) }, 200)) ∧
    ((deleteCategory db i e1 e2 e3).2 = 200 ↔ e1 = false ∧ e2 = false ∧ e3 = false) ∧
    (deleteNominee db i true e2 e3 = (db, 500)) ∧
    (deleteNominee db i false true e3
      = ({ db with votes := db.votes.filter (fun v => !(v.nominee_id == i)) }, 500)) ∧
    (deleteNominee db i false false true
      = ({ db with
             votes := db.votes.filter (fun v => !(v.nominee_id == i))
             nominations := db.nominations.filter (fun n => !(n.nominee_id == i)) }, 500)) ∧
    (deleteNominee db i false false false
      = ({ db with
             votes := db.votes.filter (fun v => !(v.nominee_id == i))
             nominations := db.nominations.filter (fun n => !(n.nominee_id == i))
             nominees := db.nominees.filter (fun m => !(m.id == i)) }, 200)) ∧
    ((deleteNominee db i e1 e2 e3).2 = 200 ↔ e1 = false ∧ e2 = false ∧ e3 = false) := by
  refine ⟨rfl, rfl, rfl, rfl, ?_, rfl, rfl, rfl, rfl, ?_⟩
  · cases e1 <;> cases e2 <;> cases e3 <;> simp [deleteCategory]
  · cases e1 <;> cases e2 <;> cases e3 <;> simp [deleteNominee]

/-- Claim C1: for a vote request in an error-free run, a missing
nomination answers 400 with no insert regardless of the votes table
(the nomination check runs before the duplicate check); with the
nomination present, an existing vote for the (voter, category) pair
answers 409 with no insert; otherwise exactly the one new vote row is
appended and the handler answers 201.  The final conjunct records that
for every failure pattern either no vote row or exactly the one row is
inserted. -/
theorem postVote_trichotomy (db : DB) (voterId categoryId nomineeId : Nat)
    (hdup : voteCountFor db voterId categoryId ≤ 1) :
    (nominatedCount db categoryId nomineeId = 0 →
      postVote db voterId categoryId nomineeId false false false = (db, 400)) ∧
    (nominatedCount db categoryId nomineeId ≠ 0 →
      votesForPair db voterId categoryId ≠ [] →
      postVote db voterId categoryId nomineeId false false false = (db, 409)) ∧
    (nominatedCount db categoryId nomineeId ≠ 0 →
      votesForPair db voterId categoryId = [] →
      postVote db voterId categoryId nomineeId false false false
        = ({ db with
               votes := db.votes ++ [{ id := db.nextVoteId, voter_id := voterId,
                                       category_id := categoryId, nominee_id := nomineeId }]
               nextVoteId := db.nextVoteId + 1 }, 201)) ∧
    (∀ a b i : Bool,
      (postVote db voterId categoryId nomineeId a b i).1.votes = db.votes ∨
      (postVote db voterId categoryId nomineeId a b i).1.votes
        = db.votes ++ [{ id := db.nextVoteId, voter_id := voterId,
                         category_id := categoryId, nominee_id := nomineeId }]) := by
  refine ⟨fun h0 => ?_, fun hne hx => ?_, fun hne hx => ?_, fun a b i => ?_⟩
  · unfold postVote
    rw [if_pos (by simp [h0])]
  · unfold postVote
    rw [if_neg (by simp [hne]), if_neg (by simp)]
    rcases hvp : votesForPair db voterId categoryId with _ | ⟨x, _ | ⟨y, t⟩⟩
    · exact absurd hvp hx
    · rfl
    · exfalso
      unfold voteCountFor at hdup
      rw [hvp] at hdup
      simp at hdup
  · unfold postVote
    rw [if_neg (by simp [hne]), if_neg (by simp), hx]
    rfl
  · rcases postVote_votes db voterId categoryId nomineeId a b i with hv | ⟨-, hv⟩
    · exact Or.inl hv
    · exact Or.inr hv

/-- Concrete run of the C1 theorem: the seeded store accepts the vote
and appends exactly one row. -/
theorem postVote_trichotomy_witness :
    postVote dbSeed 1 1 1 false false false
      = ({ dbSeed with
             votes := dbSeed.votes ++ [{ id := dbSeed.nextVoteId, voter_id := 1,
                                         category_id := 1, nominee_id := 1 }]
             nextVoteId := dbSeed.nextVoteId + 1 }, 201) :=
  (postVote_trichotomy dbSeed 1 1 1 (by decide)).2.2.1 (by decide) (by decide)

/-- Claim C6: sign-in is get-or-create keyed on email.  In an error-free
run on a store holding at most one voter with the given email: a hit
returns the id of that row without inserting; a miss inserts exactly one new
voter row with the given fields and returns its id; and a second
sign-in with the same email (any name and phone) changes no voter row
and returns the same voterId as the first. -/
theorem postSignin_idempotent (db : DB) (name email phone name2 phone2 : String)
    (hone : (emailMatches db email).length ≤ 1) :
    (∀ v : Voter, emailMatches db email = [v] →
      postSignin db name email phone false false = (db, ⟨200, some v.id⟩)) ∧
    (emailMatches db email = [] →
      postSignin db name email phone false false
        = ({ db with
               voters := db.voters ++ [{ id := db.nextVoterId, name := name,
                                         email := email, phone := phone }]
               nextVoterId := db.nextVoterId + 1 }, ⟨200, some db.nextVoterId⟩)) ∧
    ((postSignin (postSignin db name email phone false false).1
        name2 email phone2 false false).1.voters
      = (postSignin db name email phone false false).1.voters) ∧
    ((postSignin (postSignin db name email phone false false).1
        name2 email phone2 false false).2.voterId
      = (postSignin db name email phone false false).2.voterId) := by
  have hfirst : ∀ v : Voter, emailMatches db email = [v] →
      postSignin db name email phone false false = (db, ⟨200, some v.id⟩) := by
    intro v hv
    unfold postSignin
    rw [if_neg (by simp), hv]
  have hmiss : emailMatches db email = [] →
      postSignin db name email phone false false
        = ({ db with
               voters := db.voters ++ [{ id := db.nextVoterId, name := name,
                                         email := email, phone := phone }]
               nextVoterId := db.nextVoterId + 1 }, ⟨200, some db.nextVoterId⟩) := by
    intro hv
    unfold postSignin
    rw [if_neg (by simp), hv]
    rfl
  refine ⟨hfirst, hmiss, ?_⟩
  rcases hm : emailMatches db email with _ | ⟨v, _ | ⟨w, t⟩⟩
  · rw [hmiss hm]
    have h2 : emailMatches
        ({ db with
             voters := db.voters ++ [{ id := db.nextVoterId, name := name,
                                       email := email, phone := phone }]
             nextVoterId := db.nextVoterId + 1 } : DB) email
        = [{ id := db.nextVoterId, name := name, email := email, phone := phone }] := by
      unfold emailMatches at hm ⊢
      simp only [List.filter_append, hm]
      simp
    constructor
    · unfold postSignin
      rw [if_neg (by simp), h2]
    · unfold postSignin
      rw [if_neg (by simp), h2]
  · rw [hfirst v hm]
    constructor
    · unfold postSignin
      rw [if_neg (by simp), hm]
    · unfold postSignin
      rw [if_neg (by simp), hm]
  · exfalso
    rw [hm] at hone
    simp at hone

/-- Concrete run of the C6 theorem: first sign-in on the empty store
creates voter 1. -/
theorem postSignin_idempotent_witness :
    postSignin emptyDB "Bob" "bob@example.com" "111" false false
      = ({ emptyDB with
             voters := emptyDB.voters ++ [{ id := emptyDB.nextVoterId, name := "Bob",
                                            email := "bob@example.com", phone := "111" }]
             nextVoterId := emptyDB.nextVoterId + 1 }, ⟨200, some emptyDB.nextVoterId⟩) :=
  (postSignin_idempotent emptyDB "Bob" "bob@example.com" "111" "Bobby" "222"
    (by decide)).2.1 (by decide)

theorem reachable_dbSeed : Reachable dbSeed :=
  .step (.signin "Bob" "bob@example.com" "111" false false)
    (.step (.addNomination 1 1 false false)
      (.step (.addNominee "Alice" false)
        (.step (.addCategory "Best" false) .empty)))

theorem reachable_dbVoted : Reachable dbVoted :=
  .step (.vote 1 1 1 false false false) reachable_dbSeed

/-- Claim C7: every state reachable from the empty store by any
sequence of requests, whatever their store failures, holds at most one
vote row per (voter, category) pair. -/
theorem reachable_atMostOneVote {db : DB} (h : Reachable db) :
    ∀ p c, voteCountFor db p c ≤ 1 := by
  induction h with
  | empty => intro p c; simp [voteCountFor, votesForPair, emptyDB]
  | step op hr ih => exact applyOp_atMostOne op _ ih

/-- Concrete run of the C7 theorem on the reachable voted store. -/
theorem reachable_atMostOneVote_witness : voteCountFor dbVoted 1 1 ≤ 1 :=
  reachable_atMostOneVote reachable_dbVoted 1 1

/-- Claim C2 counterexample: a six-request run (create category,
nominee, nomination, sign-in, vote, then DELETE /nominations/:id)
reaches a store whose single vote row has no matching nomination row:
the invariant is not preserved by the nomination-delete endpoint. -/
theorem voteNomInv_counterexample :
    Reachable dbDangling ∧ ¬ voteNomInv dbDangling := by
  constructor
  · exact .step (.removeNomination 1 false) reachable_dbVoted
  · intro hinv
    obtain ⟨n, hn, -, -⟩ :=
      hinv { id := 1, voter_id := 1, category_id := 1, nominee_id := 1 } (by
        rw [show dbDangling.votes
            = [{ id := 1, voter_id := 1, category_id := 1, nominee_id := 1 }] from rfl]
        exact List.mem_singleton_self _)
    rw [show dbDangling.nominations = ([] : List Nomination) from rfl] at hn
    cases hn

/-- Concrete run of the C2 amended theorem: the vote request preserves
the invariant on the seeded store. -/
theorem voteNomInv_preserved_witness :
    voteNomInv (applyOp (.vote 1 1 1 false false false) dbSeed) :=
  voteNomInv_preserved_except_removeNomination (.vote 1 1 1 false false false) dbSeed rfl
    (by
      intro v hv
      rw [show dbSeed.votes = ([] : List Vote) from rfl] at hv
      cases hv)

theorem tallyLE_trans (a b c : TallyEntry) (h1 : tallyLE a b) (h2 : tallyLE b c) :
    tallyLE a c := by
  simp only [tallyLE, decide_eq_true_eq] at h1 h2 ⊢
  omega

theorem tallyLE_total (a b : TallyEntry) : tallyLE a b || tallyLE b a := by
  simp only [tallyLE, Bool.or_eq_true, decide_eq_true_eq]
  omega

/-- Claim C5 counterexample: a store whose only category is inactive
still yields one winners entry for it. -/
theorem winners_inactive_counterexample :
    dbInactive.categories.all (fun c => !c.is_active) = true ∧
    getWinners dbInactive false (fun _ => false) (fun _ _ => false)
      = ⟨200, [⟨"Retired", ⟨some 1, "Alice", 0⟩, [⟨some 1, "Alice", 0⟩]⟩]⟩ := by
  refine ⟨rfl, ?_⟩
  have hcat : getWinners dbInactive false (fun _ => false) (fun _ _ => false)
      = ⟨200, [winnersForCat dbInactive ⟨1, "Retired", none, false⟩ false (fun _ => false)]⟩ :=
    rfl
  have hwc : winnersForCat dbInactive ⟨1, "Retired", none, false⟩ false (fun _ => false)
      = ⟨"Retired", ⟨some 1, "Alice", 0⟩, [⟨some 1, "Alice", 0⟩]⟩ := by
    unfold winnersForCat
    rw [if_neg (by simp)]
    dsimp only
    rw [show tallyOf dbInactive (Category.mk 1 "Retired" none false).id (fun _ => false)
        = [⟨some 1, "Alice", 0⟩] from rfl]
    rw [List.mergeSort_singleton]
    rfl
  rw [hcat, hwc]

/-- Claim C5 amended: the winners response has exactly one entry per
category row of the store, whether the category is active or not; no
filtering on the active flag happens. -/
theorem getWinners_all_categories (db : DB) (linkErr : Nat → Bool)
    (countErr : Nat → Nat → Bool) :
    ((getWinners db false linkErr countErr).results.length = db.categories.length) ∧
    (∀ cat ∈ db.categories,
      winnersForCat db cat (linkErr cat.id) (countErr cat.id)
        ∈ (getWinners db false linkErr countErr).results) := by
  constructor
  · simp [getWinners]
  · intro cat hc
    show _ ∈ (db.categories.map (fun cat =>
      winnersForCat db cat (linkErr cat.id) (countErr cat.id)))
    exact List.mem_map_of_mem _ hc

/-- Concrete run of the C5 amended theorem: the inactive category of
the store contributes its winners entry. -/
theorem getWinners_all_categories_witness :
    winnersForCat dbInactive ⟨1, "Retired", none, false⟩ false (fun _ => false)
      ∈ (getWinners dbInactive false (fun _ => false) (fun _ _ => false)).results :=
  (getWinners_all_categories dbInactive (fun _ => false) (fun _ _ => false)).2
    ⟨1, "Retired", none, false⟩ (by decide)

theorem head_getD_max (l : List TallyEntry) (d : TallyEntry)
    (hs : l.Pairwise (fun a b => tallyLE a b = true)) (hne : l ≠ []) :
    (l.head?.getD d) ∈ l ∧ ∀ e ∈ l, e.voteCount ≤ (l.head?.getD d).voteCount := by
  cases l with
  | nil => exact absurd rfl hne
  | cons a t =>
      rw [List.pairwise_cons] at hs
      refine ⟨List.mem_cons_self a t, ?_⟩
      intro e he
      rcases List.mem_cons.mp he with rfl | he
      · exact Nat.le_refl _
      · have hba := hs.1 e he
        simp only [tallyLE, decide_eq_true_eq] at hba
        exact hba

/-- Claim C3 counterexample: in the seeded store category 1 has one
nominee and zero votes in total, yet the winner is the nominee entry
(count 0, id 1), not the zero-votes sentinel the claim demands. -/
theorem winners_zero_votes_counterexample :
    dbSeed.votes = [] ∧
    getWinners dbSeed false (fun _ => false) (fun _ _ => false)
      = ⟨200, [⟨"Best", ⟨some 1, "Alice", 0⟩, [⟨some 1, "Alice", 0⟩]⟩]⟩ ∧
    (TallyEntry.mk (some 1) "Alice" 0).name ≠ "No nominees" := by
  refine ⟨rfl, ?_, by decide⟩
  have hcat : getWinners dbSeed false (fun _ => false) (fun _ _ => false)
      = ⟨200, [winnersForCat dbSeed ⟨1, "Best", none, true⟩ false (fun _ => false)]⟩ :=
    rfl
  have hwc : winnersForCat dbSeed ⟨1, "Best", none, true⟩ false (fun _ => false)
      = ⟨"Best", ⟨some 1, "Alice", 0⟩, [⟨some 1, "Alice", 0⟩]⟩ := by
    unfold winnersForCat
    rw [if_neg (by simp)]
    dsimp only
    rw [show tallyOf dbSeed (Category.mk 1 "Best" none true).id (fun _ => false)
        = [⟨some 1, "Alice", 0⟩] from rfl]
    rw [List.mergeSort_singleton]
    rfl
  rw [hcat, hwc]

/-- Claim C3 amended: per category (error-free run) the full tally is
the descending stable sort of the tally of all resolved nominated
nominees, each with its exact vote count (0 when unvoted, never
omitted); the winner is the top tally entry whenever at least one
nominee is nominated, even when the total vote count is zero, and the
No-nominees sentinel with count 0 appears exactly when the category has
no resolved nominees, in which case the full tally is empty. -/
theorem winnersForCat_spec (db : DB) (cat : Category) :
    ((winnersForCat db cat false (fun _ => false)).fullTally
      = (tallyOf db cat.id (fun _ => false)).mergeSort tallyLE) ∧
    (resolvedNominees db cat.id = [] →
      winnersForCat db cat false (fun _ => false)
        = ⟨cat.name, ⟨none, "No nominees", 0⟩, []⟩) ∧
    ((winnersForCat db cat false (fun _ => false)).fullTally ≠ [] →
      (winnersForCat db cat false (fun _ => false)).winner
          ∈ (winnersForCat db cat false (fun _ => false)).fullTally ∧
      ∀ e ∈ (winnersForCat db cat false (fun _ => false)).fullTally,
        e.voteCount ≤ (winnersForCat db cat false (fun _ => false)).winner.voteCount) ∧
    (∀ m ∈ resolvedNominees db cat.id,
      TallyEntry.mk (some m.id) m.name (voteCountInCat db cat.id m.id)
        ∈ (winnersForCat db cat false (fun _ => false)).fullTally) := by
  refine ⟨rfl, fun hres => ?_, fun hne => ?_, fun m hm => ?_⟩
  · have ht : tallyOf db cat.id (fun _ => false) = [] := by
      unfold tallyOf
      rw [hres]
      rfl
    unfold winnersForCat
    rw [if_neg (by simp)]
    dsimp only
    rw [ht, List.mergeSort_nil]
    rfl
  · have hs : (winnersForCat db cat false (fun _ => false)).fullTally.Pairwise
        (fun a b => tallyLE a b = true) :=
      List.sorted_mergeSort tallyLE_trans tallyLE_total _
    exact head_getD_max _ _ hs hne
  · have hmem : TallyEntry.mk (some m.id) m.name (voteCountInCat db cat.id m.id)
        ∈ tallyOf db cat.id (fun _ => false) := by
      unfold tallyOf
      exact List.mem_map.mpr ⟨m, hm, rfl⟩
    exact List.mem_mergeSort.mpr hmem

/-- Concrete run of the C3 amended theorem: the unvoted nominee of the
seeded store appears in the tally with count 0. -/
theorem winnersForCat_spec_witness :
    TallyEntry.mk (some 1) "Alice" (voteCountInCat dbSeed 1 1)
      ∈ (winnersForCat dbSeed ⟨1, "Best", none, true⟩ false (fun _ => false)).fullTally :=
  (winnersForCat_spec dbSeed ⟨1, "Best", none, true⟩).2.2.2 ⟨1, "Alice"⟩ (by decide)

/-- Claim C9: per category the full winners tally is a permutation of
the fetched tally (whose order is the nomination fetch order), sorted
descending by vote count, and the sort is stable: any two tally entries
with equal vote counts keep their original relative order. -/
theorem winners_tally_sorted (db : DB) (cat : Category) (countErr : Nat → Bool) :
    ((winnersForCat db cat false countErr).fullTally.Pairwise
      (fun a b => b.voteCount ≤ a.voteCount)) ∧
    ((winnersForCat db cat false countErr).fullTally.Perm
      (tallyOf db cat.id countErr)) ∧
    (∀ a b : TallyEntry, List.Sublist [a, b] (tallyOf db cat.id countErr) →
      a.voteCount = b.voteCount →
      List.Sublist [a, b] (winnersForCat db cat false countErr).fullTally) := by
  refine ⟨?_, ?_, fun a b hsub heq => ?_⟩
  · have hs : (winnersForCat db cat false countErr).fullTally.Pairwise
        (fun a b => tallyLE a b = true) :=
      List.sorted_mergeSort tallyLE_trans tallyLE_total _
    refine hs.imp ?_
    intro a b hab
    simpa [tallyLE] using hab
  · exact List.mergeSort_perm _ _
  · have hab : tallyLE a b = true := by
      simp [tallyLE, heq]
    exact List.pair_sublist_mergeSort tallyLE_trans tallyLE_total hab hsub

/-- Concrete run of the C9 theorem: the two tied zero-vote entries of
the two-nominee store keep their nomination order in the sorted tally. -/
theorem winners_tally_sorted_witness :
    List.Sublist [TallyEntry.mk (some 1) "Alice" 0, TallyEntry.mk (some 2) "Bob" 0]
      (winnersForCat dbTwo ⟨1, "Best", none, true⟩ false (fun _ => false)).fullTally :=
  (winners_tally_sorted dbTwo ⟨1, "Best", none, true⟩ (fun _ => false)).2.2
    (TallyEntry.mk (some 1) "Alice" 0) (TallyEntry.mk (some 2) "Bob" 0)
    (by
      rw [show tallyOf dbTwo (Category.mk 1 "Best" none true).id (fun _ => false)
          = [TallyEntry.mk (some 1) "Alice" 0, TallyEntry.mk (some 2) "Bob" 0] from rfl])
    rfl

/-- Claim C4 counterexample: a store failure of the POST /vote
nomination pre-check is answered with 400 even though the nomination
exists (not a 500-class store error), and a store failure of the
winners vote-count query is reported as voteCount 0 inside a 200
response although the true count is 1. -/
theorem storeError_counterexample :
    (nominatedCount dbSeed 1 1 ≠ 0 ∧
      postVote dbSeed 1 1 1 true false false = (dbSeed, 400)) ∧
    (voteCountInCat dbVoted 1 1 = 1 ∧
      getWinners dbVoted false (fun _ => false) (fun _ _ => true)
        = ⟨200, [⟨"Best", ⟨some 1, "Alice", 0⟩, [⟨some 1, "Alice", 0⟩]⟩]⟩) := by
  refine ⟨⟨by decide, by decide⟩, by decide, ?_⟩
  have hcat : getWinners dbVoted false (fun _ => false) (fun _ _ => true)
      = ⟨200, [winnersForCat dbVoted ⟨1, "Best", none, true⟩ false (fun _ => true)]⟩ :=
    rfl
  have hwc : winnersForCat dbVoted ⟨1, "Best", none, true⟩ false (fun _ => true)
      = ⟨"Best", ⟨some 1, "Alice", 0⟩, [⟨some 1, "Alice", 0⟩]⟩ := by
    unfold winnersForCat
    rw [if_neg (by simp)]
    dsimp only
    rw [show tallyOf dbVoted (Category.mk 1 "Best" none true).id (fun _ => true)
        = [⟨some 1, "Alice", 0⟩] from rfl]
    rw [List.mergeSort_singleton]
    rfl
  rw [hcat, hwc]

/-- Claim C4 amended: store failures of the duplicate-vote pre-check
and of the vote insert, and of the winners category fetch, are answered
with 500 and leave the store unchanged; however a failing nomination
pre-check is answered with 400, and with every vote-count query failing
the winners response is still a 200 whose tally entries all report
voteCount 0. -/
theorem storeError_responses (db : DB) (v c m : Nat) (e2 e3 : Bool)
    (linkErr : Nat → Bool) (countErr : Nat → Nat → Bool) :
    (postVote db v c m true e2 e3 = (db, 400)) ∧
    (nominatedCount db c m ≠ 0 → postVote db v c m false true e3 = (db, 500)) ∧
    (nominatedCount db c m ≠ 0 → votesForPair db v c = [] →
      postVote db v c m false false true = (db, 500)) ∧
    (getWinners db true linkErr countErr = ⟨500, []⟩) ∧
    ((getWinners db false linkErr (fun _ _ => true)).status = 200 ∧
      ∀ r ∈ (getWinners db false linkErr (fun _ _ => true)).results,
        ∀ e ∈ r.fullTally, e.voteCount = 0) := by
  refine ⟨rfl, fun hne => ?_, fun hne hvp => ?_, rfl, rfl, fun r hr e he => ?_⟩
  · unfold postVote
    rw [if_neg (by simp [hne])]
    rfl
  · unfold postVote
    rw [if_neg (by simp [hne]), hvp]
    rfl
  · have hr' : r ∈ db.categories.map (fun cat =>
        winnersForCat db cat (linkErr cat.id) (fun _ => true)) := hr
    obtain ⟨cat, -, hcat⟩ := List.mem_map.mp hr'
    subst hcat
    unfold winnersForCat at he
    by_cases hl : linkErr cat.id
    · rw [if_pos (by simp [hl])] at he
      simp at he
    · rw [if_neg (by simp [hl])] at he
      dsimp only at he
      have := List.mem_mergeSort.mp he
      unfold tallyOf at this
      obtain ⟨n, -, hn⟩ := List.mem_map.mp this
      rw [if_pos rfl] at hn
      rw [← hn]

/-- Concrete run of the C4 amended theorem: a failing duplicate-vote
pre-check on the seeded store answers 500. -/
theorem storeError_responses_witness :
    postVote dbSeed 1 1 1 false true false = (dbSeed, 500) :=
  (storeError_responses dbSeed 1 1 1 true false
    (fun _ => false) (fun _ _ => false)).2.1 (by decide)
